import Mathlib

/-!
Verification of the vote-casting subsystem of the polls application
(file `mpi_vtk_js/polls/views.py`, function `vote`).

The handler is embedded as a pure function from a database state and a
request to a response together with the next database state.  The Django
ORM calls made by the view (`get_object_or_404`, the scoped
`question.choice_set.get`, and `selected_choice.save`) are embedded with
their framework semantics over an explicit list-based store:

* the call `get_object_or_404(Question, pk=question_id)` is a lookup of
  the question list by primary key, `none` standing for the raised
  `Http404`;
* the call `question.choice_set.get(pk=v)` filters the choice rows by
  owning question and primary key and, like the ORM `get`, distinguishes
  an empty result (`DoesNotExist`), a unique row, and several rows
  (`MultipleObjectsReturned`);
* the primary-key value coming from the form is a string and is coerced
  to the integer key type; a string that is not an integer literal makes
  the ORM raise `ValueError`, which the except clause of the view
  (covering `KeyError` and `Choice.DoesNotExist` only) does not catch, so
  it escapes as a server error.  The coercion is embedded as `intCoerce`
  (optional sign and digits, as for the Python `int` builtin);
* the call `selected_choice.save()` writes the in-memory object back over
  the row with the same primary key.

The file `models.py` is not part of the sources, so the record layout of
the two entities is taken from the data model of the specification.
-/

set_option autoImplicit false

namespace Polls

/-- Modelled from the spec: `models.py` is absent from the sources.  A
`Question` has an identifier (its primary key), a text and a publication
timestamp, the latter embedded as a plain number. -/
structure Question where
  id : Nat
  question_text : String
  pub_date : Nat
deriving Repr, DecidableEq

/-- Modelled from the spec: `models.py` is absent from the sources.  A
`Choice` has an identifier (its primary key), a back-reference to the
primary key of its owning `Question`, a text and a non-negative vote
tally.  The view reads the tally as `selected_choice.votes`. -/
structure Choice where
  id : Nat
  question : Nat
  choice_text : String
  votes : Nat
deriving Repr, DecidableEq

/-- The durable store the view reads and writes: the `Question` rows and
the `Choice` rows. -/
structure Database where
  questions : List Question
  choices : List Choice
deriving Repr, DecidableEq

/-- Primary keys are unique: the autoincrementing primary keys of the
framework never collide, for questions and for choices alike. -/
def Database.wf (db : Database) : Prop :=
  (db.questions.map Question.id).Nodup ∧ (db.choices.map Choice.id).Nodup

instance (db : Database) : Decidable db.wf := by
  unfold Database.wf; infer_instance

/-- The part of the request the view touches: the form-encoded POST body,
a sequence of key/value string pairs. -/
structure Request where
  POST : List (String × String)
deriving Repr, DecidableEq

/-- Reading `request.POST[k]`: the value of the first binding of the key,
`none` standing for the raised `KeyError`. -/
def Request.postLookup (r : Request) (k : String) : Option String :=
  (r.POST.find? (fun kv => kv.1 == k)).map (fun kv => kv.2)

/-- The form field the view reads. -/
def choiceKey : String := "choice"

/-- The responses the view can produce.  `notFound404` is the `Http404`
raised by `get_object_or_404`; `renderDetail` is the re-rendered voting
form carrying the question and the error message; `redirectResults` is
the `HttpResponseRedirect` to the reversed results URL of the question —
`urls.py` is absent from the sources, and modelled from the spec the
redirect target is the results view of the question carrying the
identifier of the question; `serverError500` is an exception escaping the
view. -/
inductive Response where
  | notFound404 : Response
  | renderDetail : Question → String → Response
  | redirectResults : Nat → Response
  | serverError500 : Response
deriving Repr, DecidableEq

/-- Success outcomes are exactly the redirect responses. -/
def Response.isSuccess : Response → Bool
  | .redirectResults _ => true
  | _ => false

/-- Decimal digit characters and their values. -/
def charDigit? (ch : Char) : Option Nat :=
  if 48 ≤ ch.toNat ∧ ch.toNat ≤ 57 then some (ch.toNat - 48) else none

/-- Value of an all-digit character list, accumulating left to right;
`none` as soon as a non-digit appears. -/
def digitsAccum : List Char → Nat → Option Nat
  | [], acc => some acc
  | ch :: rest, acc =>
    match charDigit? ch with
    | none => none
    | some d => digitsAccum rest (acc * 10 + d)

/-- The coercion the Python `int` builtin applies to the `pk` keyword
argument of the ORM `get`: an optional sign followed by at least one
decimal digit (surrounding whitespace, also accepted by `int`, is not
modelled).  Here `none` stands for the raised `ValueError`. -/
def intCoerce (s : String) : Option Int :=
  match s.data with
  | [] => none
  | '-' :: [] => none
  | '-' :: rest => (digitsAccum rest 0).map (fun n => -(n : Int))
  | '+' :: [] => none
  | '+' :: rest => (digitsAccum rest 0).map (fun n => (n : Int))
  | cs => (digitsAccum cs 0).map (fun n => (n : Int))

/-- Embedding of `get_object_or_404(Question, pk=question_id)`: the first
(under `Database.wf` the only) question row with the given primary
key. -/
def get_object_or_404 (db : Database) (pk : Nat) : Option Question :=
  db.questions.find? (fun q => q.id == pk)

/-- The two failure modes of the ORM `QuerySet.get`. -/
inductive GetError where
  | doesNotExist : GetError
  | multipleObjectsReturned : GetError
deriving Repr, DecidableEq

instance {ε α : Type} [DecidableEq ε] [DecidableEq α] : DecidableEq (Except ε α) := fun x y =>
  match x, y with
  | .error e1, .error e2 =>
    if h : e1 = e2 then isTrue (by rw [h]) else isFalse (by intro hc; cases hc; exact h rfl)
  | .error _, .ok _ => isFalse (by intro hc; cases hc)
  | .ok _, .error _ => isFalse (by intro hc; cases hc)
  | .ok a1, .ok a2 =>
    if h : a1 = a2 then isTrue (by rw [h]) else isFalse (by intro hc; cases hc; exact h rfl)

/-- Embedding of `question.choice_set.get(pk=pk)`: among the choice rows
owned by the question, the one with the given primary key; an empty
result is `Choice.DoesNotExist` and more than one row is
`MultipleObjectsReturned`, as for the ORM `get`.  The scoping through
`choice_set` means a choice row whose primary key matches but whose
owning question differs is not returned. -/
def choice_set_get (db : Database) (q : Question) (pk : Int) : Except GetError Choice :=
  match db.choices.filter (fun c => c.question == q.id && (c.id : Int) == pk) with
  | [] => .error .doesNotExist
  | [c] => .ok c
  | _ :: _ :: _ => .error .multipleObjectsReturned

/-- Embedding of `selected_choice.save()`: write the in-memory object
over the row with the same primary key, leaving every other row and the
question rows untouched. -/
def Database.saveChoice (db : Database) (u : Choice) : Database :=
  { db with choices := db.choices.map (fun old => if old.id == u.id then u else old) }

/-- The error message the view renders into the form. -/
def noChoiceMessage : String := "You didn\x27t select a choice."

/-- The `vote` view (`views.py` lines 39-55): resolve the question or
404; read and coerce the `choice` POST field, a missing key (`KeyError`)
or an empty result (`Choice.DoesNotExist`) re-rendering the form with an
error; an uncoercible value (`ValueError`) or an ambiguous result
(`MultipleObjectsReturned`) is outside the except clause and escapes as a
server error; otherwise increment the tally of the selected choice, save
it, and redirect to the results view of the question. -/
def vote (db : Database) (request : Request) (question_id : Nat) : Response × Database :=
  match get_object_or_404 db question_id with
  | none => (.notFound404, db)
  | some question =>
    match request.postLookup choiceKey with
    | none => (.renderDetail question noChoiceMessage, db)
    | some s =>
      match intCoerce s with
      | none => (.serverError500, db)
      | some pk =>
        match choice_set_get db question pk with
        | .error .doesNotExist => (.renderDetail question noChoiceMessage, db)
        | .error .multipleObjectsReturned => (.serverError500, db)
        | .ok selected_choice =>
          (.redirectResults question.id,
            db.saveChoice { selected_choice with votes := selected_choice.votes + 1 })

/-- The tally recorded for the choice row with the given primary key,
zero when there is no such row. -/
def tallyOf (db : Database) (pk : Nat) : Nat :=
  match db.choices.find? (fun c => c.id == pk) with
  | some c => c.votes
  | none => 0

/-- The choice row stored under a primary key. -/
def choiceById (db : Database) (pk : Nat) : Option Choice :=
  db.choices.find? (fun c => c.id == pk)

/-- Everything of a choice row except its tally. -/
def Choice.skeleton (c : Choice) : Nat × Nat × String :=
  (c.id, c.question, c.choice_text)

/-- The commit step of the view, split into its two database accesses as
the code performs them: the read is the row fetch of
`question.choice_set.get` (capturing the tally the row carried at fetch
time inside `selected_choice`), performed here by `voteReadChoice`; the
write is `selected_choice.save()` of the captured tally plus one,
performed by `voteWriteChoice`.  The increment is computed in Python
between the two, not inside the store. -/
def voteReadChoice (db : Database) (req : Request) (qid : Nat) : Option Choice :=
  match get_object_or_404 db qid with
  | none => none
  | some q =>
    match req.postLookup choiceKey with
    | none => none
    | some s =>
      match intCoerce s with
      | none => none
      | some pk =>
        match choice_set_get db q pk with
        | .error _ => none
        | .ok c => some c

/-- The write half of the commit step: save the fetched row with the
fetched tally plus one. -/
def voteWriteChoice (db : Database) (snapshot : Choice) : Database :=
  db.saveChoice { snapshot with votes := snapshot.votes + 1 }

/-- The vote view with the persistence of the increment made fallible:
`saveOk` tells whether `selected_choice.save()` commits durably.  The
code wraps no retry and no exception handling around the save, so a
failing save escapes as a server error and the handler issues it once.
The third component of the result counts the issued save calls. -/
def voteWithSave (saveOk : Bool) (db : Database) (request : Request)
    (question_id : Nat) : Response × Database × Nat :=
  match get_object_or_404 db question_id with
  | none => (.notFound404, db, 0)
  | some question =>
    match request.postLookup choiceKey with
    | none => (.renderDetail question noChoiceMessage, db, 0)
    | some s =>
      match intCoerce s with
      | none => (.serverError500, db, 0)
      | some pk =>
        match choice_set_get db question pk with
        | .error .doesNotExist => (.renderDetail question noChoiceMessage, db, 0)
        | .error .multipleObjectsReturned => (.serverError500, db, 0)
        | .ok selected_choice =>
          if saveOk then
            (.redirectResults question.id,
              db.saveChoice { selected_choice with votes := selected_choice.votes + 1 }, 1)
          else (.serverError500, db, 1)

/-- Sequential composition of the handler: `voteN n` runs the handler `n`
times in a row, each invocation starting from the store the previous one
produced. -/
def voteN : Nat → Database → Request → Nat → Database
  | 0, db, _, _ => db
  | n + 1, db, req, qid => voteN n (vote db req qid).2 req qid

/-! ### Sample store, mirroring the scenario of the specification -/

/-- Sample question 1. -/
def exQ1 : Question := ⟨1, r"q1", 0⟩

/-- Sample question 2. -/
def exQ2 : Question := ⟨2, r"q2", 0⟩

/-- Sample choice of question 1 with a zero tally. -/
def exC1 : Choice := ⟨11, 1, r"c1", 0⟩

/-- Second sample choice of question 1. -/
def exC2 : Choice := ⟨12, 1, r"c2", 3⟩

/-- Sample choice of question 2, foreign to question 1. -/
def exC3 : Choice := ⟨21, 2, r"c3", 5⟩

/-- The sample store. -/
def exDb : Database := ⟨[exQ1, exQ2], [exC1, exC2, exC3]⟩

/-- A submission selecting the sample choice `exC1` by its key. -/
def exReqValid : Request := ⟨[(choiceKey, r"11")]⟩

/-- A submission selecting the second sample choice `exC2`. -/
def exReqValid2 : Request := ⟨[(choiceKey, r"12")]⟩

/-- A submission whose choice field is not an integer literal. -/
def exReqBad : Request := ⟨[(choiceKey, r"abc")]⟩

/-- A submission with no choice field at all. -/
def exReqEmpty : Request := ⟨[]⟩

/-- A submission selecting, against question 1, the key of a choice that
belongs to question 2. -/
def exReqForeign : Request := ⟨[(choiceKey, r"21")]⟩

/-! ### Helper lemmas about the store operations -/

/-- Writing a choice back never changes the primary key of any row. -/
theorem replace_id (u old : Choice) :
    (if old.id == u.id then u else old).id = old.id := by
  by_cases h : old.id = u.id
  · simp [h]
  · simp [h]

/-- Lookup by primary key commutes with the row rewrite of a save. -/
theorem find?_map_replace (l : List Choice) (u : Choice) (pk : Nat) :
    (l.map (fun old => if old.id == u.id then u else old)).find? (fun c => c.id == pk) =
      (l.find? (fun c => c.id == pk)).map (fun old => if old.id == u.id then u else old) := by
  rw [List.find?_map]
  have hp : ((fun c : Choice => c.id == pk) ∘ fun old => if old.id == u.id then u else old) =
      fun c : Choice => c.id == pk := by
    funext old
    by_cases h : old.id = u.id <;> simp [Function.comp, h]
  rw [hp]

/-- A save leaves the list of primary keys unchanged. -/
theorem map_id_saveChoice (db : Database) (u : Choice) :
    (db.saveChoice u).choices.map Choice.id = db.choices.map Choice.id := by
  show (db.choices.map fun old => if old.id == u.id then u else old).map Choice.id = _
  rw [List.map_map]
  congr 1
  funext old
  by_cases h : old.id = u.id <;> simp [Function.comp, h]

/-- A save leaves the question rows unchanged. -/
theorem questions_saveChoice (db : Database) (u : Choice) :
    (db.saveChoice u).questions = db.questions := rfl

/-- A save preserves well-formedness. -/
theorem wf_saveChoice (db : Database) (u : Choice) (hwf : db.wf) :
    (db.saveChoice u).wf := by
  refine ⟨hwf.1, ?_⟩
  rw [map_id_saveChoice]
  exact hwf.2

/-- With unique primary keys, lookup by key hits any given member bearing
that key. -/
theorem find?_eq_of_mem_nodup {l : List Choice} {c : Choice} {pk : Nat}
    (hnd : (l.map Choice.id).Nodup) (hmem : c ∈ l) (hid : c.id = pk) :
    l.find? (fun x => x.id == pk) = some c := by
  induction l with
  | nil => cases hmem
  | cons h t ih =>
    rw [List.map_cons] at hnd
    have hnotin : h.id ∉ t.map Choice.id := (List.nodup_cons.mp hnd).1
    have hndt : (t.map Choice.id).Nodup := (List.nodup_cons.mp hnd).2
    rcases List.mem_cons.mp hmem with rfl | hmemt
    · exact List.find?_cons_of_pos _ (by simp [hid])
    · have hne : h.id ≠ pk := by
        intro he
        apply hnotin
        rw [he, ← hid]
        exact List.mem_map.mpr ⟨c, hmemt, rfl⟩
      rw [List.find?_cons_of_neg _ (by simp [hne])]
      exact ih hndt hmemt

/-- Saving a row does not touch the tally recorded under any other
primary key. -/
theorem tallyOf_saveChoice_ne (db : Database) (u : Choice) (pk : Nat)
    (h : pk ≠ u.id) :
    tallyOf (db.saveChoice u) pk = tallyOf db pk := by
  unfold tallyOf Database.saveChoice
  rw [find?_map_replace]
  cases hf : db.choices.find? (fun c => c.id == pk) with
  | none => rfl
  | some c =>
    have hc : c.id = pk := by simpa using List.find?_some hf
    have hne : ¬(c.id = u.id) := by rw [hc]; exact h
    simp [hne]

/-- Saving a row does not touch the row stored under any other primary
key. -/
theorem choiceById_saveChoice_ne (db : Database) (u : Choice) (pk : Nat)
    (h : pk ≠ u.id) :
    choiceById (db.saveChoice u) pk = choiceById db pk := by
  unfold choiceById Database.saveChoice
  rw [find?_map_replace]
  cases hf : db.choices.find? (fun c => c.id == pk) with
  | none => rfl
  | some c =>
    have hc : c.id = pk := by simpa using List.find?_some hf
    have hne : ¬(c.id = u.id) := by rw [hc]; exact h
    simp [hne]

/-- Saving a row installs exactly its tally under its own primary key,
provided the key was present. -/
theorem tallyOf_saveChoice_self (db : Database) (u c0 : Choice)
    (hfind : db.choices.find? (fun c => c.id == u.id) = some c0) :
    tallyOf (db.saveChoice u) u.id = u.votes := by
  unfold tallyOf Database.saveChoice
  rw [find?_map_replace, hfind]
  have hc : c0.id = u.id := by simpa using List.find?_some hfind
  simp [hc]

/-- With unique primary keys, the tally recorded under the key of a
member is the vote count of that member. -/
theorem tallyOf_eq_votes {db : Database} {c : Choice}
    (hnd : (db.choices.map Choice.id).Nodup) (hmem : c ∈ db.choices) :
    tallyOf db c.id = c.votes := by
  unfold tallyOf
  rw [find?_eq_of_mem_nodup hnd hmem rfl]

/-- A found question bears the requested primary key. -/
theorem get_object_or_404_id {db : Database} {qid : Nat} {q : Question}
    (h : get_object_or_404 db qid = some q) : q.id = qid := by
  simpa using List.find?_some h

/-- A successful scoped lookup filters down to exactly the returned
row. -/
theorem choice_set_get_filter {db : Database} {q : Question} {pk : Int} {c : Choice}
    (h : choice_set_get db q pk = .ok c) :
    db.choices.filter (fun x => x.question == q.id && (x.id : Int) == pk) = [c] := by
  unfold choice_set_get at h
  split at h <;> simp_all

/-- A successful scoped lookup returns a member row of the store, owned
by the question and bearing the requested primary key. -/
theorem choice_set_get_ok {db : Database} {q : Question} {pk : Int} {c : Choice}
    (h : choice_set_get db q pk = .ok c) :
    c ∈ db.choices ∧ c.question = q.id ∧ (c.id : Int) = pk := by
  have hf := choice_set_get_filter h
  have hmem : c ∈ db.choices.filter (fun x => x.question == q.id && (x.id : Int) == pk) := by
    rw [hf]
    exact List.mem_singleton.mpr rfl
  have hm := List.mem_filter.mp hmem
  have hb : c.question = q.id ∧ (c.id : Int) = pk := by simpa using hm.2
  exact ⟨hm.1, hb.1, hb.2⟩

/-- The accepted path of the vote handler, fully unfolded: the response
is the redirect and the new store is the save of the choice with its
tally bumped. -/
theorem vote_accepted {db : Database} {req : Request} {qid : Nat}
    {q : Question} {s : String} {pk : Int} {c : Choice}
    (hq : get_object_or_404 db qid = some q)
    (hs : req.postLookup choiceKey = some s)
    (hpk : intCoerce s = some pk)
    (hc : choice_set_get db q pk = .ok c) :
    vote db req qid =
      (.redirectResults q.id, db.saveChoice { c with votes := c.votes + 1 }) := by
  simp only [vote, hq, hs, hpk, hc]

/-- Every invocation either leaves the store untouched or takes the
accepted path. -/
theorem vote_cases (db : Database) (req : Request) (qid : Nat) :
    (vote db req qid).2 = db ∨
    ∃ q s pk c,
      get_object_or_404 db qid = some q ∧
      req.postLookup choiceKey = some s ∧
      intCoerce s = some pk ∧
      choice_set_get db q pk = .ok c ∧
      vote db req qid = (.redirectResults q.id, db.saveChoice { c with votes := c.votes + 1 }) := by
  cases hq : get_object_or_404 db qid with
  | none => left; simp [vote, hq]
  | some q =>
    cases hs : req.postLookup choiceKey with
    | none => left; simp [vote, hq, hs]
    | some s =>
      cases hpk : intCoerce s with
      | none => left; simp [vote, hq, hs, hpk]
      | some pk =>
        cases hc : choice_set_get db q pk with
        | error e =>
          cases e <;> (left; simp [vote, hq, hs, hpk, hc])
        | ok c =>
          exact Or.inr ⟨q, s, pk, c, rfl, rfl, hpk, hc, vote_accepted hq hs hpk hc⟩

/-- With unique primary keys, a save of a row agreeing with a uniquely
filtered row on key and owner re-filters to exactly the saved row. -/
theorem filter_map_replace (qid2 : Nat) (pk : Int) (l : List Choice)
    (hnd : (l.map Choice.id).Nodup) (c u : Choice)
    (hid : u.id = c.id) (hqu : u.question = c.question)
    (hf : l.filter (fun x => x.question == qid2 && (x.id : Int) == pk) = [c]) :
    (l.map (fun old => if old.id == u.id then u else old)).filter
      (fun x => x.question == qid2 && (x.id : Int) == pk) = [u] := by
  induction l with
  | nil => simp at hf
  | cons h t ih =>
    rw [List.map_cons] at hnd
    have hnotin := (List.nodup_cons.mp hnd).1
    have hndt := (List.nodup_cons.mp hnd).2
    rw [List.filter_cons] at hf
    simp only [List.map_cons, List.filter_cons]
    by_cases hP : (h.question == qid2 && ((h.id : Int) == pk)) = true
    · rw [if_pos hP] at hf
      have hhc : h = c := (List.cons_eq_cons.mp hf).1
      have htnil : t.filter (fun x => x.question == qid2 && (x.id : Int) == pk) = [] :=
        (List.cons_eq_cons.mp hf).2
      subst hhc
      have hfu : (if (h.id == u.id) = true then u else h) = u := by
        simp [hid]
      rw [hfu]
      have hPu : (u.question == qid2 && ((u.id : Int) == pk)) = true := by
        rw [hqu, hid]
        exact hP
      rw [if_pos hPu]
      have hrest : (t.map (fun old => if old.id == u.id then u else old)).filter
          (fun x => x.question == qid2 && (x.id : Int) == pk) = [] := by
        rw [List.filter_eq_nil_iff]
        intro x hx
        obtain ⟨x0, hx0, rfl⟩ := List.mem_map.mp hx
        have hne : x0.id ≠ u.id := by
          intro he
          apply hnotin
          rw [← hid, ← he]
          exact List.mem_map.mpr ⟨x0, hx0, rfl⟩
        rw [if_neg (by simpa using hne)]
        exact List.filter_eq_nil_iff.mp htnil x0 hx0
      rw [hrest]
    · rw [if_neg hP] at hf
      have hcmem : c ∈ t := by
        have hcf : c ∈ t.filter (fun x => x.question == qid2 && (x.id : Int) == pk) := by
          rw [hf]
          exact List.mem_singleton.mpr rfl
        exact (List.mem_filter.mp hcf).1
      have hne : h.id ≠ u.id := by
        intro he
        apply hnotin
        rw [he, hid]
        exact List.mem_map.mpr ⟨c, hcmem, rfl⟩
      have hfh : (if (h.id == u.id) = true then u else h) = h := by
        simp [hne]
      rw [hfh, if_neg hP]
      exact ih hndt hf

/-- With unique primary keys, after saving the bumped row the scoped
lookup finds exactly the bumped row. -/
theorem choice_set_get_saveChoice {db : Database} {q : Question} {pk : Int} {c : Choice}
    (hnd : (db.choices.map Choice.id).Nodup)
    (hc : choice_set_get db q pk = .ok c) (u : Choice)
    (hid : u.id = c.id) (hqu : u.question = c.question) :
    choice_set_get (db.saveChoice u) q pk = .ok u := by
  unfold choice_set_get
  have hf := choice_set_get_filter hc
  have hflt := filter_map_replace q.id pk db.choices hnd c u hid hqu hf
  show (match (db.choices.map fun old => if old.id == u.id then u else old).filter
      (fun x => x.question == q.id && (x.id : Int) == pk) with
    | [] => Except.error GetError.doesNotExist
    | [c] => Except.ok c
    | _ :: _ :: _ => Except.error GetError.multipleObjectsReturned) = Except.ok u
  rw [hflt]

/-- With unique primary keys, a save that only changes the tally of a
member row leaves the non-tally projection of every row unchanged. -/
theorem skeleton_saveChoice (db : Database) (c : Choice) (v : Nat)
    (hnd : (db.choices.map Choice.id).Nodup) (hmem : c ∈ db.choices) :
    (db.saveChoice { c with votes := v }).choices.map Choice.skeleton =
      db.choices.map Choice.skeleton := by
  show (db.choices.map fun old =>
      if old.id == ({ c with votes := v } : Choice).id then { c with votes := v } else old).map
      Choice.skeleton = _
  rw [List.map_map]
  apply List.map_congr_left
  intro a ha
  by_cases h : a.id = c.id
  · have hac : a = c := List.inj_on_of_nodup_map hnd ha hmem h
    subst hac
    simp [Function.comp, Choice.skeleton]
  · simp [Function.comp, Choice.skeleton, h]

/-- An accepted invocation writes exactly what the write half of the
commit step produces from the read half. -/
theorem vote_read_write {db : Database} {req : Request} {qid : Nat} {c : Choice}
    (h : voteReadChoice db req qid = some c) :
    (vote db req qid).2 = voteWriteChoice db c := by
  cases hq : get_object_or_404 db qid with
  | none => simp [voteReadChoice, hq] at h
  | some q =>
    cases hs : req.postLookup choiceKey with
    | none => simp [voteReadChoice, hq, hs] at h
    | some s =>
      cases hpk : intCoerce s with
      | none => simp [voteReadChoice, hq, hs, hpk] at h
      | some pk =>
        cases hc : choice_set_get db q pk with
        | error e => simp [voteReadChoice, hq, hs, hpk, hc] at h
        | ok c0 =>
          have hcc : c0 = c := by
            simpa [voteReadChoice, hq, hs, hpk, hc] using h
          subst hcc
          rw [vote_accepted hq hs hpk hc]
          rfl

/-- With persistence succeeding, the fallible variant coincides with the
view on both the response and the resulting store. -/
theorem voteWithSave_true (db : Database) (req : Request) (qid : Nat) :
    (voteWithSave true db req qid).1 = (vote db req qid).1 ∧
    (voteWithSave true db req qid).2.1 = (vote db req qid).2 := by
  cases hq : get_object_or_404 db qid with
  | none => simp [voteWithSave, vote, hq]
  | some q =>
    cases hs : req.postLookup choiceKey with
    | none => simp [voteWithSave, vote, hq, hs]
    | some s =>
      cases hpk : intCoerce s with
      | none => simp [voteWithSave, vote, hq, hs, hpk]
      | some pk =>
        cases hc : choice_set_get db q pk with
        | error e => cases e <;> simp [voteWithSave, vote, hq, hs, hpk, hc]
        | ok c => simp [voteWithSave, vote, hq, hs, hpk, hc]

/-! ### The claims -/

/-- Claim C1: for every accepted vote submission (the question resolves,
the choice field coerces, and the selected choice is found under that
question), the handler increments the tally of exactly the selected
choice by exactly one unit: the tally under the key of the selected row
grows by one and the tally under every other key is unchanged. -/
theorem C1_accepted_increments_exactly_one (db : Database) (req : Request)
    (qid : Nat) (q : Question) (s : String) (pk : Int) (c : Choice)
    (hwf : db.wf)
    (hq : get_object_or_404 db qid = some q)
    (hs : req.postLookup choiceKey = some s)
    (hpk : intCoerce s = some pk)
    (hc : choice_set_get db q pk = .ok c) :
    tallyOf (vote db req qid).2 c.id = tallyOf db c.id + 1 ∧
    ∀ pk2 : Nat, pk2 ≠ c.id → tallyOf (vote db req qid).2 pk2 = tallyOf db pk2 := by
  have hok := choice_set_get_ok hc
  have hfind : db.choices.find? (fun x => x.id == c.id) = some c :=
    find?_eq_of_mem_nodup hwf.2 hok.1 rfl
  have hv2 : (vote db req qid).2 = db.saveChoice { c with votes := c.votes + 1 } := by
    rw [vote_accepted hq hs hpk hc]
  constructor
  · rw [hv2]
    have h1 : tallyOf (db.saveChoice { c with votes := c.votes + 1 }) c.id = c.votes + 1 :=
      tallyOf_saveChoice_self db { c with votes := c.votes + 1 } c hfind
    have h2 : tallyOf db c.id = c.votes := tallyOf_eq_votes hwf.2 hok.1
    rw [h1, h2]
  · intro pk2 hne
    rw [hv2]
    exact tallyOf_saveChoice_ne db { c with votes := c.votes + 1 } pk2 hne

/-- Witness for C1 at the sample store: voting for choice 11 of question
1 bumps tally 11 by one and leaves tally 12 alone. -/
theorem C1_witness :
    tallyOf (vote exDb exReqValid 1).2 exC1.id = tallyOf exDb exC1.id + 1 ∧
    tallyOf (vote exDb exReqValid 1).2 12 = tallyOf exDb 12 := by
  have h := C1_accepted_increments_exactly_one exDb exReqValid 1 exQ1 (r"11") 11 exC1
    (by decide) (by decide) (by decide) (by decide) (by decide)
  exact ⟨h.1, h.2 12 (by decide)⟩

/-- Claim C2: a submission against an existing question whose choice
reference is missing, or coerces but matches no choice row under that
question (covering nonexistent keys and keys owned by another question),
leaves the store — hence every tally — unchanged and re-renders the form
of the original question with the error message, with no redirect. -/
theorem C2_invalid_choice_renders_form (db : Database) (req : Request)
    (qid : Nat) (q : Question)
    (hq : get_object_or_404 db qid = some q)
    (h : req.postLookup choiceKey = none ∨
      ∃ s pk, req.postLookup choiceKey = some s ∧ intCoerce s = some pk ∧
        choice_set_get db q pk = .error .doesNotExist) :
    vote db req qid = (.renderDetail q noChoiceMessage, db) := by
  rcases h with hnone | ⟨s, pk, hs, hpk, hc⟩
  · simp [vote, hq, hnone]
  · simp [vote, hq, hs, hpk, hc]

/-- Witness for C2 at the sample store: submitting, against question 1,
the key of a choice owned by question 2 re-renders the form and changes
nothing. -/
theorem C2_witness :
    vote exDb exReqForeign 1 = (.renderDetail exQ1 noChoiceMessage, exDb) :=
  C2_invalid_choice_renders_form exDb exReqForeign 1 exQ1 (by decide)
    (Or.inr ⟨r"21", 21, by decide, by decide, by decide⟩)

/-- Claim C3 fails on the code: at the sample store, a choice field that
does not coerce to an integer makes the ORM raise `ValueError`, which the
except clause of the view does not cover, so the outcome is a server
error and not the form re-display the claim requires (the store is still
unchanged). -/
theorem C3_counterexample :
    vote exDb exReqBad 1 = (.serverError500, exDb) ∧
    (vote exDb exReqBad 1).1 ≠ .renderDetail exQ1 noChoiceMessage := by
  decide

/-- Claim C3 (amended): a present but uncoercible choice field leaves the
store unchanged, but the outcome is an uncaught server-side failure, not
the form re-display: the except clause covers only `KeyError` and
`Choice.DoesNotExist`, so the coercion failure escapes the view. -/
theorem C3_amended_unparsable_is_server_error (db : Database) (req : Request)
    (qid : Nat) (q : Question) (s : String)
    (hq : get_object_or_404 db qid = some q)
    (hs : req.postLookup choiceKey = some s)
    (hpk : intCoerce s = none) :
    vote db req qid = (.serverError500, db) := by
  simp [vote, hq, hs, hpk]

/-- Witness for the amended C3 at the sample store. -/
theorem C3_amended_witness :
    vote exDb exReqBad 1 = (.serverError500, exDb) :=
  C3_amended_unparsable_is_server_error exDb exReqBad 1 exQ1 (r"abc")
    (by decide) (by decide) (by decide)

/-- Claim C4 fails on the code: the commit is a separate
read-compute-write (`votes += 1` in Python, then `save()`), not an atomic
store-side increment, so two concurrent handlers may interleave as
read, read, write, write.  At the sample store both handlers fetch choice
11 with tally 0 before either writes; after both writes the tally is 1,
not the 0 + 2 the claim requires of every interleaving of two
successfully committed submissions. -/
theorem C4_counterexample :
    voteReadChoice exDb exReqValid 1 = some exC1 ∧
    tallyOf (voteWriteChoice (voteWriteChoice exDb exC1) exC1) exC1.id = 1 ∧
    tallyOf (voteWriteChoice (voteWriteChoice exDb exC1) exC1) exC1.id ≠
      tallyOf exDb exC1.id + 2 := by
  decide

/-- Claim C4 (amended): the increment is a separate read-compute-write,
so interleaved concurrent handlers can lose updates (see the
counterexample); what holds is the sequential form: N submissions for the
same choice executed one after the other, each seeing the store the
previous one left, raise its tally by exactly N. -/
theorem C4_amended_sequential_adds_n (n : Nat) (db : Database) (req : Request)
    (qid : Nat) (q : Question) (s : String) (pk : Int) (c : Choice)
    (hwf : db.wf)
    (hq : get_object_or_404 db qid = some q)
    (hs : req.postLookup choiceKey = some s)
    (hpk : intCoerce s = some pk)
    (hc : choice_set_get db q pk = .ok c) :
    tallyOf (voteN n db req qid) c.id = tallyOf db c.id + n := by
  induction n generalizing db c with
  | zero => rfl
  | succ n ih =>
    have hok := choice_set_get_ok hc
    have hfind : db.choices.find? (fun x => x.id == c.id) = some c :=
      find?_eq_of_mem_nodup hwf.2 hok.1 rfl
    have hv2 : (vote db req qid).2 = db.saveChoice { c with votes := c.votes + 1 } := by
      rw [vote_accepted hq hs hpk hc]
    have hwf2 : ((vote db req qid).2).wf := by
      rw [hv2]
      exact wf_saveChoice db _ hwf
    have hq2 : get_object_or_404 (vote db req qid).2 qid = some q := by
      rw [hv2]
      exact hq
    have hc2 : choice_set_get (vote db req qid).2 q pk = .ok { c with votes := c.votes + 1 } := by
      rw [hv2]
      exact choice_set_get_saveChoice hwf.2 hc { c with votes := c.votes + 1 } rfl rfl
    have hstep : tallyOf (vote db req qid).2 c.id = tallyOf db c.id + 1 := by
      rw [hv2]
      have h1 : tallyOf (db.saveChoice { c with votes := c.votes + 1 }) c.id = c.votes + 1 :=
        tallyOf_saveChoice_self db { c with votes := c.votes + 1 } c hfind
      have h2 : tallyOf db c.id = c.votes := tallyOf_eq_votes hwf.2 hok.1
      rw [h1, h2]
    have h3 : tallyOf (voteN n (vote db req qid).2 req qid) c.id =
        tallyOf (vote db req qid).2 c.id + n :=
      ih (vote db req qid).2 { c with votes := c.votes + 1 } hwf2 hq2 hc2
    show tallyOf (voteN n (vote db req qid).2 req qid) c.id = tallyOf db c.id + (n + 1)
    rw [h3, hstep]
    omega

/-- Witness for the amended C4 at the sample store: three sequential
submissions for choice 11 raise its tally by three. -/
theorem C4_amended_witness :
    tallyOf (voteN 3 exDb exReqValid 1) exC1.id = tallyOf exDb exC1.id + 3 :=
  C4_amended_sequential_adds_n 3 exDb exReqValid 1 exQ1 (r"11") 11 exC1
    (by decide) (by decide) (by decide) (by decide) (by decide)

/-- Claim C5: for every successful vote submission the response of the
handler is a redirect instruction carrying the identifier of the voted
question for its results view, and never a rendered form. -/
theorem C5_success_redirects (db : Database) (req : Request) (qid : Nat)
    (q : Question) (s : String) (pk : Int) (c : Choice)
    (hq : get_object_or_404 db qid = some q)
    (hs : req.postLookup choiceKey = some s)
    (hpk : intCoerce s = some pk)
    (hc : choice_set_get db q pk = .ok c) :
    (vote db req qid).1 = .redirectResults qid ∧
    ∀ (q2 : Question) (m : String), (vote db req qid).1 ≠ .renderDetail q2 m := by
  have hv : (vote db req qid).1 = .redirectResults q.id := by
    rw [vote_accepted hq hs hpk hc]
  rw [get_object_or_404_id hq] at hv
  refine ⟨hv, ?_⟩
  intro q2 m
  rw [hv]
  simp

/-- Witness for C5 at the sample store. -/
theorem C5_witness :
    (vote exDb exReqValid 1).1 = .redirectResults 1 ∧
    (vote exDb exReqValid 1).1 ≠ .renderDetail exQ1 noChoiceMessage := by
  have h := C5_success_redirects exDb exReqValid 1 exQ1 (r"11") 11 exC1
    (by decide) (by decide) (by decide) (by decide)
  exact ⟨h.1, h.2 exQ1 noChoiceMessage⟩

/-- Claim C6: a submission referencing a question key absent from the
store yields the not-found outcome and leaves the store — hence every
tally of every choice — unchanged, whatever the choice field holds. -/
theorem C6_question_not_found (db : Database) (req : Request) (qid : Nat)
    (h : get_object_or_404 db qid = none) :
    vote db req qid = (.notFound404, db) := by
  simp [vote, h]

/-- Witness for C6 at the sample store: question 9 does not exist. -/
theorem C6_witness : vote exDb exReqValid 9 = (.notFound404, exDb) :=
  C6_question_not_found exDb exReqValid 9 (by decide)

/-- Claim C7: the choice lookup is scoped to the owning question: a
returned row always exists in the store, bears the requested key and
belongs to the given question; and when every row bearing the key belongs
to a different question — in particular when the key exists only under
another question — the lookup reports the row as not existing. -/
theorem C7_lookup_scoped_to_question (db : Database) (q : Question) (pk : Int) :
    (∀ c : Choice, choice_set_get db q pk = .ok c →
      c ∈ db.choices ∧ (c.id : Int) = pk ∧ c.question = q.id) ∧
    ((∀ c : Choice, c ∈ db.choices → (c.id : Int) = pk → c.question ≠ q.id) →
      choice_set_get db q pk = .error .doesNotExist) := by
  constructor
  · intro c hc
    have hok := choice_set_get_ok hc
    exact ⟨hok.1, hok.2.2, hok.2.1⟩
  · intro hall
    have hnil : db.choices.filter (fun x => x.question == q.id && (x.id : Int) == pk) = [] := by
      rw [List.filter_eq_nil_iff]
      intro x hx hbx
      have hb : x.question = q.id ∧ (x.id : Int) = pk := by simpa using hbx
      exact hall x hx hb.2 hb.1
    unfold choice_set_get
    show (match db.choices.filter (fun x => x.question == q.id && (x.id : Int) == pk) with
      | [] => Except.error GetError.doesNotExist
      | [c] => Except.ok c
      | _ :: _ :: _ => Except.error GetError.multipleObjectsReturned) =
        Except.error GetError.doesNotExist
    rw [hnil]

/-- Witness for C7 at the sample store: key 21 exists, owned by question
2, and its lookup scoped to question 1 reports not existing. -/
theorem C7_witness :
    (exC3 ∈ exDb.choices ∧ (exC3.id : Int) = 21 ∧ exC3.question = exQ2.id) ∧
    choice_set_get exDb exQ1 21 = .error .doesNotExist :=
  ⟨(C7_lookup_scoped_to_question exDb exQ2 21).1 exC3 (by decide),
   (C7_lookup_scoped_to_question exDb exQ1 21).2 (by decide)⟩

/-- Claim C8: if the persistence of the increment fails, the outcome is
never a success redirect; and on every path — failing or not — the
handler issues the save at most once, with no internal retry. -/
theorem C8_persistence_failure_no_success_no_retry (b : Bool) (db : Database)
    (req : Request) (qid : Nat) :
    (voteWithSave b db req qid).2.2 ≤ 1 ∧
    (b = false → (voteWithSave b db req qid).1.isSuccess = false) := by
  cases hq : get_object_or_404 db qid with
  | none => simp [voteWithSave, hq, Response.isSuccess]
  | some q =>
    cases hs : req.postLookup choiceKey with
    | none => simp [voteWithSave, hq, hs, Response.isSuccess]
    | some s =>
      cases hpk : intCoerce s with
      | none => simp [voteWithSave, hq, hs, hpk, Response.isSuccess]
      | some pk =>
        cases hc : choice_set_get db q pk with
        | error e =>
          cases e <;> simp [voteWithSave, hq, hs, hpk, hc, Response.isSuccess]
        | ok c =>
          cases b <;> simp [voteWithSave, hq, hs, hpk, hc, Response.isSuccess]

/-- Witness for C8 at the sample store with a failing save. -/
theorem C8_witness :
    (voteWithSave false exDb exReqValid 1).2.2 ≤ 1 ∧
    (voteWithSave false exDb exReqValid 1).1.isSuccess = false :=
  ⟨(C8_persistence_failure_no_success_no_retry false exDb exReqValid 1).1,
   (C8_persistence_failure_no_success_no_retry false exDb exReqValid 1).2 rfl⟩

/-- Claim C9: tallies never decrease: whatever the submission and
whatever path the handler takes, the tally recorded under every primary
key after the invocation is at least the tally before it. -/
theorem C9_tally_monotone (db : Database) (req : Request) (qid : Nat)
    (pk2 : Nat) (hwf : db.wf) :
    tallyOf db pk2 ≤ tallyOf (vote db req qid).2 pk2 := by
  rcases vote_cases db req qid with heq | ⟨q, s, pk, c, hq, hs, hpk, hc, hv⟩
  · rw [heq]
  · have hv2 : (vote db req qid).2 = db.saveChoice { c with votes := c.votes + 1 } := by
      rw [hv]
    rw [hv2]
    by_cases hid : pk2 = c.id
    · subst hid
      have hok := choice_set_get_ok hc
      have hfind : db.choices.find? (fun x => x.id == c.id) = some c :=
        find?_eq_of_mem_nodup hwf.2 hok.1 rfl
      have h1 : tallyOf (db.saveChoice { c with votes := c.votes + 1 }) c.id = c.votes + 1 :=
        tallyOf_saveChoice_self db { c with votes := c.votes + 1 } c hfind
      have h2 : tallyOf db c.id = c.votes := tallyOf_eq_votes hwf.2 hok.1
      rw [h1, h2]
      exact Nat.le_succ c.votes
    · rw [tallyOf_saveChoice_ne db { c with votes := c.votes + 1 } pk2 hid]

/-- Witness for C9 at the sample store. -/
theorem C9_witness :
    tallyOf exDb 11 ≤ tallyOf (vote exDb exReqValid 1).2 11 :=
  C9_tally_monotone exDb exReqValid 1 11 (by decide)

/-- Claim C10: frame property of one invocation: the question rows are
unchanged, no choice row is created or deleted, the key, owner and text
of every choice row are unchanged, and either the store is wholly
unchanged or the submission was accepted and every row other than the
selected one — the row whose key the choice field coerces to — is wholly
unchanged. -/
theorem C10_frame (db : Database) (req : Request) (qid : Nat) (hwf : db.wf) :
    (vote db req qid).2.questions = db.questions ∧
    (vote db req qid).2.choices.map Choice.skeleton = db.choices.map Choice.skeleton ∧
    ((vote db req qid).2 = db ∨
      ∃ s pk, req.postLookup choiceKey = some s ∧ intCoerce s = some pk ∧
        ∀ pk2 : Nat, (pk2 : Int) ≠ pk →
          choiceById (vote db req qid).2 pk2 = choiceById db pk2) := by
  rcases vote_cases db req qid with heq | ⟨q, s, pk, c, hq, hs, hpk, hc, hv⟩
  · rw [heq]
    exact ⟨rfl, rfl, Or.inl rfl⟩
  · have hv2 : (vote db req qid).2 = db.saveChoice { c with votes := c.votes + 1 } := by
      rw [hv]
    have hok := choice_set_get_ok hc
    refine ⟨?_, ?_, Or.inr ⟨s, pk, hs, hpk, ?_⟩⟩
    · rw [hv2]
      rfl
    · rw [hv2]
      exact skeleton_saveChoice db c (c.votes + 1) hwf.2 hok.1
    · intro pk2 hne
      rw [hv2]
      apply choiceById_saveChoice_ne
      intro he
      apply hne
      rw [he]
      exact hok.2.2

/-- Witness for C10 at the sample store. -/
theorem C10_witness :
    (vote exDb exReqValid 1).2.questions = exDb.questions ∧
    (vote exDb exReqValid 1).2.choices.map Choice.skeleton =
      exDb.choices.map Choice.skeleton ∧
    ((vote exDb exReqValid 1).2 = exDb ∨
      ∃ s pk, exReqValid.postLookup choiceKey = some s ∧ intCoerce s = some pk ∧
        ∀ pk2 : Nat, (pk2 : Int) ≠ pk →
          choiceById (vote exDb exReqValid 1).2 pk2 = choiceById exDb pk2) :=
  C10_frame exDb exReqValid 1 (by decide)

end Polls
